import Mathlib

/-!
# Verification of the CUR sample selector (`skcosmo/sample_selection/simple_cur.py`)

A shallow embedding of the `CUR` greedy sample selector.  Matrices are lists of
rows over `ℚ` (the Python code uses machine floats; we idealize them as exact
rationals).  The external collaborators — the randomized truncated SVD, the
row orthogonalizer and the target orthogonalizer from `sklearn` /
`skcosmo.utils` — are abstract function parameters bundled in `Ext`; the
generic greedy skeleton (`GreedySelector`, a repository file not shown) is
modelled from the spec where noted.  Complex numbers returned by the SVD are
modelled as pairs `(re, im) : ℚ × ℚ`, the first component being the real part.
-/

namespace SimpleCUR

/-- A real matrix as a list of rows. -/
abbrev Mat := List (List ℚ)

/-- External collaborators of the CUR selector: the randomized truncated SVD
(`sklearn.utils.extmath.randomized_svd`: arguments are the matrix, the number
of components `k`, the iteration count `n_iter` (`none` = "auto"), and the
seed (`none` = unseeded); the result is the matrix `U` of left singular
vectors, with possibly complex entries `(re, im)`), the row orthogonalizer
`X_orthogonalizer` (in its two call shapes used by `simple_cur.py`: against a
reference matrix of already-selected rows, and against a single just-selected
row index with a tolerance) and the target orthogonalizer
`Y_sample_orthogonalizer` (target, working matrix, selected-target reference,
selected-matrix reference, tolerance).  These live outside the shown source,
so they are abstract parameters here. -/
structure Ext where
  svd : Mat → ℕ → Option ℕ → Option ℕ → List (List (ℚ × ℚ))
  xOrthRef : Mat → Mat → Mat
  xOrthCol : Mat → ℕ → ℚ → Mat
  yOrth : Mat → Mat → Mat → Mat → ℚ → Mat

/-- The constructor arguments of `CUR.__init__` (counts already resolved to a
natural number; `iterated_power` is `none` for `"auto"`; `random_state` is
`none` for `None`). -/
structure CURConfig where
  n_samples_to_select : ℕ
  score_thresh_to_select : Option ℚ
  iterative : Bool
  k : ℕ
  tolerance : ℚ
  iterated_power : Option ℕ
  random_state : Option ℕ

/-- The fixed numerical tolerance `1e-12` hard-coded in
`_continue_greedy_search` and `_update_post_selection`. -/
def tol12 : ℚ := 1 / 1000000000000

/-- The configuration the base `GreedySelector` receives.  Translated from
`CUR.__init__`: `super().__init__(scoring=scoring, n_samples_to_select=...,
progress_bar=..., score_thresh_to_select=tolerance)` — note the source passes
`tolerance`, not the `score_thresh_to_select` given by the caller. -/
structure GreedyConfig where
  n_to_select : ℕ
  score_threshold : Option ℚ

/-- Translated from `CUR.__init__`: the base class is constructed with
`score_thresh_to_select=tolerance`; the `score_thresh_to_select` argument of
`CUR.__init__` itself is discarded. -/
def curSuperInit (c : CURConfig) : GreedyConfig :=
  { n_to_select := c.n_samples_to_select
    score_threshold := some c.tolerance }

/-- Translated from `CUR._compute_pi`: run the randomized SVD and return, per
row of `U`, the sum of the squares of the real parts of the first `k` entries
(`(np.real(U[:, :self.k]) ** 2.0).sum(axis=1)`).  The `y` argument is
accepted and ignored, exactly as in the source (`def _compute_pi(self, X,
y=None)` never uses `y`). -/
def computePi (ext : Ext) (cfg : CURConfig) (X : Mat) (y : Option Mat) : List ℚ :=
  let _ := y
  (ext.svd X cfg.k cfg.iterated_power cfg.random_state).map
    (fun row => ((row.take cfg.k).map (fun c => c.1 ^ 2)).sum)

/-- The working state of one selection run: the working
matrix, working target and importance vector, together with the bookkeeping
the greedy skeleton owns (eligible mask, ordered selected indices, selected
rows and selected target rows). -/
structure CURState where
  X_current : Mat
  y_current : Option Mat
  pi : List ℚ
  eligible : List Bool
  selected : List ℕ
  X_selected : Mat
  y_selected : Mat

/-- Translated from `CUR._init_greedy_search` (fresh start): copy the input
matrix and, when given, the target into the working state, compute the
importance vector over the full working matrix, and hand empty bookkeeping to
the skeleton (every sample eligible, nothing selected — modelled from the
spec for the `super()` part). -/
def initState (ext : Ext) (cfg : CURConfig) (X : Mat) (y : Option Mat) : CURState :=
  { X_current := X
    y_current := y
    pi := computePi ext cfg X y
    eligible := List.replicate X.length true
    selected := []
    X_selected := []
    y_selected := [] }

/-- Translated from `CUR._continue_greedy_search` (continued start):
re-derive the working matrix by orthogonalizing the full input against the
already-selected rows, re-derive the working target (when present) by the
target orthogonalizer with tolerance `1e-12` against the new working matrix
and the selected references, then recompute the importance vector on the new
working matrix.  The `y` fit argument is unused by the CUR part, as in the
source. -/
def continueState (ext : Ext) (cfg : CURConfig) (X : Mat) (y : Option Mat)
    (st : CURState) : CURState :=
  let _ := y
  let Xc := ext.xOrthRef X st.X_selected
  let yc := match st.y_current with
    | some yprev => some (ext.yOrth yprev Xc st.y_selected st.X_selected tol12)
    | none => none
  { st with X_current := Xc, y_current := yc, pi := computePi ext cfg Xc yc }

/-- The rows of `A` at positions where the mask is `true`
(numpy fancy indexing `A[mask]`). -/
def maskRows (A : Mat) (mask : List Bool) : Mat :=
  ((A.zip mask).filter (fun p => p.2)).map (fun p => p.1)

/-- Write the values `vals` into the positions of `pi` where the mask is
`true`, in order (numpy fancy assignment `pi[mask] = vals`); positions with a
`false` mask keep their entry. -/
def scatter : List ℚ → List Bool → List ℚ → List ℚ
  | [], _, _ => []
  | p :: ps, [], _ => p :: ps
  | _ :: ps, true :: es, v :: vs => v :: scatter ps es vs
  | p :: ps, true :: es, [] => p :: scatter ps es []
  | p :: ps, false :: es, vs => p :: scatter ps es vs

/-- Translated from `CUR._update_post_selection`, including the base-class
part (modelled from the spec: the skeleton records the selected index, marks
it ineligible and appends the row of the original input, and the target row if a
target was given, to the selected accumulators).  Then, only when
`iterative` holds: regress the just-selected sample out of the working target
(when present, against the pre-orthogonalization working matrix),
orthogonalize the working matrix against the just-selected row with tolerance
`1e-12`, and recompute the importance of the still-eligible rows only.
Finally, unconditionally force the importance of the just-selected sample to
exactly zero. -/
def updatePost (ext : Ext) (cfg : CURConfig) (X : Mat) (y : Option Mat)
    (st : CURState) (i : ℕ) : CURState :=
  let st1 : CURState :=
    { st with
      selected := st.selected ++ [i]
      eligible := st.eligible.set i false
      X_selected := st.X_selected ++ [X.getD i []]
      y_selected := match y with
        | some ym => st.y_selected ++ [ym.getD i []]
        | none => st.y_selected }
  let st2 : CURState :=
    if cfg.iterative then
      let yc := match st1.y_current with
        | some yprev =>
            some (ext.yOrth yprev st1.X_current st1.y_selected st1.X_selected tol12)
        | none => none
      let Xc := ext.xOrthCol st1.X_current i tol12
      let subY := match yc with
        | some ym => some (maskRows ym st1.eligible)
        | none => none
      { st1 with
        y_current := yc
        X_current := Xc
        pi := scatter st1.pi st1.eligible
          (computePi ext cfg (maskRows Xc st1.eligible) subY) }
    else st1
  { st2 with pi := st2.pi.set i 0 }

/-- First-index-wins argmax over the eligible entries of the importance
vector, indices counted from `n`.  Modelled from the spec: the skeleton picks
the best-scoring eligible candidate, ties broken by the stable order of the
underlying max primitive (first index wins). -/
def argmaxEligAux : List ℚ → List Bool → ℕ → Option (ℕ × ℚ)
  | [], _, _ => none
  | _ :: _, [], _ => none
  | p :: ps, true :: es, n =>
      match argmaxEligAux ps es (n + 1) with
      | none => some (n, p)
      | some (m, q) => if p < q then some (m, q) else some (n, p)
  | _ :: ps, false :: es, n => argmaxEligAux ps es (n + 1)

/-- Best-scoring eligible sample of the current importance vector. -/
def argmaxElig (pi : List ℚ) (elig : List Bool) : Option (ℕ × ℚ) :=
  argmaxEligAux pi elig 0

/-- Modelled from the spec: the selection loop of the greedy skeleton.  It stops
when the requested count is reached, when no eligible candidate remains, or —
when a score threshold is configured — when the maximum remaining importance
score is at or below that threshold; otherwise it picks the best eligible
candidate and runs the post-selection update.  `fuel` bounds the recursion. -/
def selectLoop (ext : Ext) (cfg : CURConfig) (g : GreedyConfig)
    (X : Mat) (y : Option Mat) : ℕ → CURState → CURState
  | 0, st => st
  | fuel + 1, st =>
      if g.n_to_select ≤ st.selected.length then st
      else
        match argmaxElig st.pi st.eligible with
        | none => st
        | some (i, s) =>
            match g.score_threshold with
            | some t =>
                if s ≤ t then st
                else selectLoop ext cfg g X y fuel (updatePost ext cfg X y st i)
            | none => selectLoop ext cfg g X y fuel (updatePost ext cfg X y st i)

/-- A fresh fit: initialize from the full data, then run the skeleton loop
under the greedy configuration that `CUR.__init__` actually installed. -/
def fitFresh (ext : Ext) (cfg : CURConfig) (X : Mat) (y : Option Mat) : CURState :=
  let g := curSuperInit cfg
  selectLoop ext cfg g X y g.n_to_select (initState ext cfg X y)

/-- Modelled from the spec: fit-time validation performed before any scoring
work.  The skeleton contract in the spec validates the selection count (a count of
zero, or one exceeding the sample count, is an immediate error); neither the
CUR source nor the skeleton contract checks the rank `k` anywhere before
scoring. -/
def fitValidated (ext : Ext) (cfg : CURConfig) (X : Mat) (y : Option Mat) :
    Except String CURState :=
  if cfg.n_samples_to_select = 0 then
    Except.error "n_samples_to_select must be positive"
  else if X.length < cfg.n_samples_to_select then
    Except.error "n_samples_to_select exceeds the sample count"
  else
    Except.ok (fitFresh ext cfg X y)


/-! ## Helper lemmas -/

theorem scatter_length : ∀ (p : List ℚ) (e : List Bool) (v : List ℚ),
    (scatter p e v).length = p.length
  | [], _, _ => rfl
  | _ :: _, [], _ => rfl
  | _ :: ps, true :: es, v :: vs => by
      simp [scatter, scatter_length ps es vs]
  | _ :: ps, true :: es, [] => by
      simp [scatter, scatter_length ps es []]
  | _ :: ps, false :: es, vs => by
      simp [scatter, scatter_length ps es vs]

theorem scatter_getElem?_of_false :
    ∀ (p : List ℚ) (e : List Bool) (v : List ℚ) (j : ℕ),
      e[j]? = some false → (scatter p e v)[j]? = p[j]?
  | [], _, _, _ => fun _ => rfl
  | _ :: _, [], _, _ => fun h => by simp at h
  | _ :: _, true :: _, _ :: _, 0 => fun h => by simp at h
  | _ :: ps, true :: es, v :: vs, j + 1 => fun h => by
      simpa [scatter] using scatter_getElem?_of_false ps es vs j (by simpa using h)
  | _ :: _, true :: _, [], 0 => fun h => by simp at h
  | _ :: ps, true :: es, [], j + 1 => fun h => by
      simpa [scatter] using scatter_getElem?_of_false ps es [] j (by simpa using h)
  | _ :: _, false :: _, _, 0 => fun _ => by simp [scatter]
  | _ :: ps, false :: es, vs, j + 1 => fun h => by
      simpa [scatter] using scatter_getElem?_of_false ps es vs j (by simpa using h)

theorem getElem?_set_false {e : List Bool} {j i : ℕ} (h : e[j]? = some false) :
    (e.set i false)[j]? = some false := by
  by_cases hj : i = j
  · subst hj
    have hlt : i < e.length := (List.getElem?_eq_some.mp h).1
    exact List.getElem?_set_eq_of_lt false hlt
  · rw [List.getElem?_set_ne hj]
    exact h

theorem argmaxEligAux_lt :
    ∀ (p : List ℚ) (e : List Bool) (n i : ℕ) (s : ℚ),
      argmaxEligAux p e n = some (i, s) →
      n ≤ i ∧ i - n < p.length ∧ i - n < e.length
  | [], _, n, i, s => fun h => by simp [argmaxEligAux] at h
  | _ :: _, [], n, i, s => fun h => by simp [argmaxEligAux] at h
  | p :: ps, true :: es, n, i, s => fun h => by
      rw [argmaxEligAux] at h
      rcases hrec : argmaxEligAux ps es (n + 1) with _ | ⟨m, q⟩
      · rw [hrec] at h
        simp only [Option.some.injEq, Prod.mk.injEq] at h
        obtain ⟨hni, -⟩ := h
        subst hni
        simp only [List.length_cons]
        omega
      · rw [hrec] at h
        obtain ⟨h1, h2, h3⟩ := argmaxEligAux_lt ps es (n + 1) m q hrec
        by_cases hpq : p < q
        · simp only [hpq, if_pos] at h
          simp only [Option.some.injEq, Prod.mk.injEq] at h
          obtain ⟨hmi, -⟩ := h
          subst hmi
          simp only [List.length_cons]
          omega
        · simp only [hpq, if_neg, not_false_iff] at h
          simp only [Option.some.injEq, Prod.mk.injEq] at h
          obtain ⟨hni, -⟩ := h
          subst hni
          simp only [List.length_cons]
          omega
  | p :: ps, false :: es, n, i, s => fun h => by
      rw [argmaxEligAux] at h
      obtain ⟨h1, h2, h3⟩ := argmaxEligAux_lt ps es (n + 1) i s h
      simp only [List.length_cons]
      omega

theorem argmaxElig_lt {p : List ℚ} {e : List Bool} {i : ℕ} {s : ℚ}
    (h : argmaxElig p e = some (i, s)) : i < p.length ∧ i < e.length := by
  obtain ⟨h1, h2, h3⟩ := argmaxEligAux_lt p e 0 i s h
  omega


theorem updatePost_pi_length (ext : Ext) (cfg : CURConfig) (X : Mat)
    (y : Option Mat) (st : CURState) (i : ℕ) :
    (updatePost ext cfg X y st i).pi.length = st.pi.length := by
  unfold updatePost
  by_cases hit : cfg.iterative
  · simp [hit, scatter_length]
  · simp [hit]

theorem updatePost_eligible (ext : Ext) (cfg : CURConfig) (X : Mat)
    (y : Option Mat) (st : CURState) (i : ℕ) :
    (updatePost ext cfg X y st i).eligible = st.eligible.set i false := by
  unfold updatePost
  by_cases hit : cfg.iterative
  · simp [hit]
  · simp [hit]

theorem updatePost_selected (ext : Ext) (cfg : CURConfig) (X : Mat)
    (y : Option Mat) (st : CURState) (i : ℕ) :
    (updatePost ext cfg X y st i).selected = st.selected ++ [i] := by
  unfold updatePost
  by_cases hit : cfg.iterative
  · simp [hit]
  · simp [hit]

theorem updatePost_pi_at_pick (ext : Ext) (cfg : CURConfig) (X : Mat)
    (y : Option Mat) (st : CURState) (i : ℕ) (hi : i < st.pi.length) :
    (updatePost ext cfg X y st i).pi[i]? = some 0 := by
  unfold updatePost
  by_cases hit : cfg.iterative
  · simp only [hit, if_pos]
    exact List.getElem?_set_eq_of_lt 0 (by simpa [scatter_length] using hi)
  · simp only [hit, if_neg, Bool.false_eq_true, not_false_iff]
    exact List.getElem?_set_eq_of_lt 0 hi

theorem updatePost_pi_at_other (ext : Ext) (cfg : CURConfig) (X : Mat)
    (y : Option Mat) (st : CURState) (i j : ℕ) (hj : j ≠ i)
    (hf : st.eligible[j]? = some false) :
    (updatePost ext cfg X y st i).pi[j]? = st.pi[j]? := by
  unfold updatePost
  by_cases hit : cfg.iterative
  · simp only [hit, if_pos]
    rw [List.getElem?_set_ne (fun h => hj h.symm)]
    exact scatter_getElem?_of_false _ _ _ j (getElem?_set_false hf)
  · simp only [hit, if_neg, Bool.false_eq_true, not_false_iff]
    exact List.getElem?_set_ne (fun h => hj h.symm)

/-- The invariant of claim C2: every already-selected sample is marked
ineligible and carries an importance score of exactly zero. -/
def selInv (st : CURState) : Prop :=
  ∀ j ∈ st.selected, st.eligible[j]? = some false ∧ st.pi[j]? = some 0

theorem updatePost_selInv {ext : Ext} {cfg : CURConfig} {X : Mat}
    {y : Option Mat} {st : CURState} {i : ℕ} (h : selInv st)
    (hip : i < st.pi.length) (hie : i < st.eligible.length) :
    selInv (updatePost ext cfg X y st i) := by
  intro j hj
  rw [updatePost_selected] at hj
  rw [updatePost_eligible]
  rcases List.mem_append.mp hj with hmem | hlast
  · obtain ⟨he, hp⟩ := h j hmem
    refine ⟨getElem?_set_false he, ?_⟩
    by_cases hji : j = i
    · subst hji
      exact updatePost_pi_at_pick ext cfg X y st j hip
    · rw [updatePost_pi_at_other ext cfg X y st i j hji he]
      exact hp
  · have hji : j = i := by simpa using hlast
    subst hji
    exact ⟨List.getElem?_set_eq_of_lt false hie,
      updatePost_pi_at_pick ext cfg X y st j hip⟩

theorem selectLoop_selInv (ext : Ext) (cfg : CURConfig) (g : GreedyConfig)
    (X : Mat) (y : Option Mat) :
    ∀ (fuel : ℕ) (st : CURState), selInv st →
      selInv (selectLoop ext cfg g X y fuel st)
  | 0, st, h => h
  | fuel + 1, st, h => by
      rw [selectLoop]
      split
      · exact h
      · rcases heq : argmaxElig st.pi st.eligible with _ | ⟨i, s⟩
        · simp only [heq]
          exact h
        · simp only [heq]
          obtain ⟨hip, hie⟩ := argmaxElig_lt heq
          rcases hth : g.score_threshold with _ | t
        

          · exact selectLoop_selInv ext cfg g X y fuel _
              (updatePost_selInv h hip hie)
          · by_cases hst : s ≤ t
            · simp only [hst, if_pos]
              exact h
            · simp only [hst, if_neg, not_false_iff]
              exact selectLoop_selInv ext cfg g X y fuel _
                (updatePost_selInv h hip hie)

theorem computePi_y_irrelevant (ext : Ext) (cfg : CURConfig) (A : Mat)
    (y : Option Mat) : computePi ext cfg A y = computePi ext cfg A none := rfl

theorem computePi_length (ext : Ext) (cfg : CURConfig) (X : Mat) (y : Option Mat)
    (hsvd : (ext.svd X cfg.k cfg.iterated_power cfg.random_state).length = X.length) :
    (computePi ext cfg X y).length = X.length := by
  simp [computePi, hsvd]

theorem selectLoop_pi_length (ext : Ext) (cfg : CURConfig) (g : GreedyConfig)
    (X : Mat) (y : Option Mat) :
    ∀ (fuel : ℕ) (st : CURState),
      (selectLoop ext cfg g X y fuel st).pi.length = st.pi.length
  | 0, _ => rfl
  | fuel + 1, st => by
      rw [selectLoop]
      split
      · rfl
      · rcases harg : argmaxElig st.pi st.eligible with _ | ⟨i, s⟩
        · simp only [harg]
        · simp only [harg]
          rcases hth : g.score_threshold with _ | th
          · rw [selectLoop_pi_length ext cfg g X y fuel _, updatePost_pi_length]
          · by_cases hst : s ≤ th
            · simp only [hst, if_pos]
            · simp only [hst, if_neg, not_false_iff]
              rw [selectLoop_pi_length ext cfg g X y fuel _, updatePost_pi_length]

/-- Agreement on every piece of run state that can influence scoring and
selection: the working matrix, the importance vector, the eligible mask and
the ordered selected indices (the working target and the selected-row
accumulators are excluded on purpose; claim C10 is exactly the statement
that they cannot flow back into these four components). -/
def Agree (sa sb : CURState) : Prop :=
  sa.X_current = sb.X_current ∧ sa.pi = sb.pi ∧
    sa.eligible = sb.eligible ∧ sa.selected = sb.selected

theorem updatePost_agree {ext : Ext} {cfg : CURConfig} {X : Mat}
    {y₁ y₂ : Option Mat} {sa sb : CURState} {i : ℕ} (h : Agree sa sb) :
    Agree (updatePost ext cfg X y₁ sa i) (updatePost ext cfg X y₂ sb i) := by
  obtain ⟨h1, h2, h3, h4⟩ := h
  unfold updatePost
  by_cases hit : cfg.iterative <;>
    simp [Agree, hit, h1, h2, h3, h4,
      show ∀ A yy, computePi ext cfg A yy = computePi ext cfg A none from
        fun _ _ => rfl]

theorem selectLoop_agree (ext : Ext) (cfg : CURConfig) (g : GreedyConfig)
    (X : Mat) (y₁ y₂ : Option Mat) :
    ∀ (fuel : ℕ) (sa sb : CURState), Agree sa sb →
      Agree (selectLoop ext cfg g X y₁ fuel sa) (selectLoop ext cfg g X y₂ fuel sb)
  | 0, _, _, h => h
  | fuel + 1, sa, sb, h => by
      obtain ⟨h1, h2, h3, h4⟩ := id h
      rw [selectLoop, selectLoop, h2, h3, h4]
      split
      · exact h
      · rcases harg : argmaxElig sb.pi sb.eligible with _ | ⟨i, s⟩
        · simp only [harg]
          exact h
        · simp only [harg]
          rcases hth : g.score_threshold with _ | th
          · exact selectLoop_agree ext cfg g X y₁ y₂ fuel _ _ (updatePost_agree h)
          · by_cases hst : s ≤ th
            · simp only [hst, if_pos]
              exact h
            · simp only [hst, if_neg, not_false_iff]
              exact selectLoop_agree ext cfg g X y₁ y₂ fuel _ _ (updatePost_agree h)

/-! ## Concrete instances used to evaluate the model -/

/-- A concrete stand-in for the randomized SVD, used only to evaluate the
model on explicit inputs: each row of `U` is the first entry of the
corresponding input row, as a real number. -/
def svdW : Mat → ℕ → Option ℕ → Option ℕ → List (List (ℚ × ℚ)) :=
  fun X _ _ _ => X.map (fun r => [((r.getD 0 0), 0)])

/-- Concrete external collaborators for evaluating the model. -/
def extW : Ext :=
  { svd := svdW
    xOrthRef := fun A _ => A
    xOrthCol := fun A _ _ => A
    yOrth := fun yprev _ _ _ _ => yprev }

/-- A concrete configuration: select two samples, a score threshold of `1`
requested by the caller, non-iterative, rank one, default tolerance. -/
def cfgW : CURConfig :=
  { n_samples_to_select := 2
    score_thresh_to_select := some 1
    iterative := false
    k := 1
    tolerance := tol12
    iterated_power := none
    random_state := none }

/-- A concrete three-sample input matrix. -/
def XW : Mat := [[1/2], [1/3], [1/4]]

/-- A concrete target matrix aligned with `XW`. -/
def YW : Mat := [[1], [2], [3]]

/-- `cfgW` with a rank of zero (a non-positive rank). -/
def cfgZ : CURConfig := { cfgW with k := 0 }

/-- `cfgW` with the iterative flag on. -/
def cfgI : CURConfig := { cfgW with iterative := true }

theorem selectLoop_selected_mono (ext : Ext) (cfg : CURConfig) (g : GreedyConfig)
    (X : Mat) (y : Option Mat) :
    ∀ (fuel : ℕ) (st : CURState) (j : ℕ), j ∈ st.selected →
      j ∈ (selectLoop ext cfg g X y fuel st).selected
  | 0, _, _, h => h
  | fuel + 1, st, j, h => by
      rw [selectLoop]
      split
      · exact h
      · rcases harg : argmaxElig st.pi st.eligible with _ | ⟨i, s⟩
        · simp only [harg]
          exact h
        · simp only [harg]
          have hup : j ∈ (updatePost ext cfg X y st i).selected := by
            rw [updatePost_selected]
            exact List.mem_append_left _ h
          rcases hth : g.score_threshold with _ | th
          · exact selectLoop_selected_mono ext cfg g X y fuel _ j hup
          · by_cases hst : s ≤ th
            · simp only [hst, if_pos]
              exact h
            · simp only [hst, if_neg, not_false_iff]
              exact selectLoop_selected_mono ext cfg g X y fuel _ j hup

/-! ## The claims -/

/-- C1 (code bug): the claim fails on the code.  `CUR.__init__` hands the
skeleton `score_thresh_to_select=tolerance`, discarding the
`score_thresh_to_select` the caller configured, so the configured threshold
never reaches the stopping rule.  Evaluated at the failing input: the caller
sets a score threshold of `1` and every importance score is at or below `1`
from the very start (`1/4`, `1/9`, `1/16`), so by the claim (and by the class
docstring) selection should stop before picking anything; the code instead
installs `tolerance = 1e-12` as the threshold and selects two samples. -/
theorem c1_threshold_ignored_eval :
    cfgW.score_thresh_to_select = some 1 ∧
    (curSuperInit cfgW).score_threshold = some tol12 ∧
    (initState extW cfgW XW none).pi = [1/4, 1/9, 1/16] ∧
    (fitFresh extW cfgW XW none).selected = [0, 1] := by
  refine ⟨rfl, rfl, ?_, ?_⟩
  · norm_num [initState, computePi, extW, svdW, cfgW, XW]
  · norm_num [fitFresh, selectLoop, initState, updatePost, computePi, extW,
      svdW, cfgW, XW, curSuperInit, argmaxElig, argmaxEligAux, tol12, scatter]

/-- C2: immediately after the post-selection update the just-selected sample
has importance exactly zero, whatever the `iterative` flag, and every sample
in the selected list keeps importance exactly zero after any number of
further loop iterations. -/
theorem c2_selected_zero (ext : Ext) (cfg : CURConfig) (g : GreedyConfig)
    (X : Mat) (y : Option Mat) (st : CURState) (i fuel : ℕ)
    (hip : i < st.pi.length) (hie : i < st.eligible.length) (hinv : selInv st) :
    (updatePost ext cfg X y st i).pi[i]? = some 0 ∧
    ∀ j ∈ (updatePost ext cfg X y st i).selected,
      (selectLoop ext cfg g X y fuel (updatePost ext cfg X y st i)).pi[j]?
        = some 0 := by
  refine ⟨updatePost_pi_at_pick ext cfg X y st i hip, fun j hj => ?_⟩
  have hinv2 : selInv (updatePost ext cfg X y st i) :=
    updatePost_selInv hinv hip hie
  have hloop := selectLoop_selInv ext cfg g X y fuel _ hinv2
  exact (hloop j (selectLoop_selected_mono ext cfg g X y fuel _ j hj)).2

theorem c2_selected_zero_witness :
    (updatePost extW cfgI XW none (initState extW cfgI XW none) 2).pi[2]?
      = some 0 ∧
    (selectLoop extW cfgI (curSuperInit cfgI) XW none 1
      (updatePost extW cfgI XW none (initState extW cfgI XW none) 2)).pi[2]?
      = some 0 := by
  have h := c2_selected_zero extW cfgI (curSuperInit cfgI) XW none
    (initState extW cfgI XW none) 2 1 (by decide) (by decide)
    (fun j hj => absurd hj (List.not_mem_nil j))
  exact ⟨h.1, h.2 2 (by decide)⟩

/-- C3: on a continued start the working matrix is re-derived by
orthogonalizing the full input against the previously selected rows, the
working target (when present) is re-derived by the target orthogonalizer
with tolerance `1e-12` from the previous working target against the selected
references, and the importance vector is recomputed on the orthogonalized
working matrix. -/
theorem c3_continued_start (ext : Ext) (cfg : CURConfig) (X : Mat)
    (y : Option Mat) (st : CURState) (yprev : Mat)
    (h : st.y_current = some yprev) :
    (continueState ext cfg X y st).X_current = ext.xOrthRef X st.X_selected ∧
    (continueState ext cfg X y st).y_current =
      some (ext.yOrth yprev (ext.xOrthRef X st.X_selected)
        st.y_selected st.X_selected tol12) ∧
    tol12 = 1 / 1000000000000 ∧
    (continueState ext cfg X y st).pi =
      computePi ext cfg (ext.xOrthRef X st.X_selected)
        (continueState ext cfg X y st).y_current := by
  refine ⟨rfl, ?_, rfl, ?_⟩ <;> simp [continueState, h]

theorem c3_continued_start_witness :
    (continueState extW cfgW XW (some YW)
        (initState extW cfgW XW (some YW))).y_current =
      some (extW.yOrth YW
        (extW.xOrthRef XW (initState extW cfgW XW (some YW)).X_selected)
        (initState extW cfgW XW (some YW)).y_selected
        (initState extW cfgW XW (some YW)).X_selected tol12) :=
  (c3_continued_start extW cfgW XW (some YW)
    (initState extW cfgW XW (some YW)) YW rfl).2.1

/-- C4: with `iterative=false` the post-selection update leaves the working
matrix and the working target unchanged and changes the importance vector
only by forcing the entry of the just-selected sample to zero; every other
entry is untouched. -/
theorem c4_noniterative_frame (ext : Ext) (cfg : CURConfig) (X : Mat)
    (y : Option Mat) (st : CURState) (i : ℕ) (h : cfg.iterative = false) :
    (updatePost ext cfg X y st i).X_current = st.X_current ∧
    (updatePost ext cfg X y st i).y_current = st.y_current ∧
    (updatePost ext cfg X y st i).pi = st.pi.set i 0 ∧
    ∀ j, j ≠ i → (updatePost ext cfg X y st i).pi[j]? = st.pi[j]? := by
  refine ⟨by simp [updatePost, h], by simp [updatePost, h],
    by simp [updatePost, h], fun j hj => ?_⟩
  have hpi : (updatePost ext cfg X y st i).pi = st.pi.set i 0 := by
    simp [updatePost, h]
  rw [hpi]
  exact List.getElem?_set_ne (fun hh => hj hh.symm)

theorem c4_noniterative_frame_witness :
    (updatePost extW cfgW XW none (initState extW cfgW XW none) 0).pi
      = (initState extW cfgW XW none).pi.set 0 0 :=
  (c4_noniterative_frame extW cfgW XW none
    (initState extW cfgW XW none) 0 rfl).2.2.1

/-- C5: the importance score of row `i` is the sum of the squares of the
real parts of the entries of row `i` of `U` across the first `rank` left
singular vectors, and is non-negative. -/
theorem c5_score_formula (ext : Ext) (cfg : CURConfig) (X : Mat)
    (y : Option Mat) (i : ℕ) (row : List (ℚ × ℚ))
    (h : (ext.svd X cfg.k cfg.iterated_power cfg.random_state)[i]? = some row) :
    (computePi ext cfg X y)[i]? =
      some (((row.take cfg.k).map (fun c => c.1 ^ 2)).sum) ∧
    0 ≤ ((row.take cfg.k).map (fun c => c.1 ^ 2)).sum := by
  constructor
  · simp [computePi, List.getElem?_map, h]
  · refine List.sum_nonneg ?_
    intro x hx
    obtain ⟨c, -, rfl⟩ := List.mem_map.mp hx
    exact sq_nonneg c.1

theorem c5_score_formula_witness :
    (computePi extW cfgW XW none)[0]? =
      some ((([((1 : ℚ)/2, (0 : ℚ))].take cfgW.k).map (fun c => c.1 ^ 2)).sum) ∧
    0 ≤ ((([((1 : ℚ)/2, (0 : ℚ))].take cfgW.k).map (fun c => c.1 ^ 2)).sum) :=
  c5_score_formula extW cfgW XW none 0 [(1/2, 0)] rfl

/-- C6: two runs with identical inputs, identical optional target, identical
configuration (hence identical random seed) and the same external
collaborators produce identical ordered selected-index sequences. -/
theorem c6_deterministic (ext : Ext) (cfg₁ cfg₂ : CURConfig)
    (X₁ X₂ : Mat) (y₁ y₂ : Option Mat)
    (hc : cfg₁ = cfg₂) (hX : X₁ = X₂) (hy : y₁ = y₂) :
    (fitFresh ext cfg₁ X₁ y₁).selected = (fitFresh ext cfg₂ X₂ y₂).selected := by
  subst hc
  subst hX
  subst hy
  rfl

theorem c6_deterministic_witness :
    (fitFresh extW cfgW XW none).selected = (fitFresh extW cfgW XW none).selected :=
  c6_deterministic extW cfgW cfgW XW XW none none rfl rfl rfl

/-- C7: under the SVD contract (one row of `U` per input row) and the
orthogonalizer contract (row count preserved), the importance vector has
length equal to the total sample count after initialization and after
continuation, and both the post-selection update and the whole selection
loop preserve that length at every iteration. -/
theorem c7_pi_length (ext : Ext) (cfg : CURConfig) (g : GreedyConfig)
    (X : Mat) (y : Option Mat) (st : CURState) (fuel : ℕ)
    (hsvd : ∀ (A : Mat) (k : ℕ) (it sd : Option ℕ),
      (ext.svd A k it sd).length = A.length)
    (hxo : ∀ (A B : Mat), (ext.xOrthRef A B).length = A.length) :
    (initState ext cfg X y).pi.length = X.length ∧
    (∀ (st2 : CURState) (i : ℕ),
      (updatePost ext cfg X y st2 i).pi.length = st2.pi.length) ∧
    (selectLoop ext cfg g X y fuel st).pi.length = st.pi.length ∧
    (continueState ext cfg X y st).pi.length = X.length := by
  refine ⟨?_, fun st2 i => updatePost_pi_length ext cfg X y st2 i,
    selectLoop_pi_length ext cfg g X y fuel st, ?_⟩
  · exact computePi_length ext cfg X y (hsvd X cfg.k cfg.iterated_power cfg.random_state)
  · have hlen : ∀ (yy : Option Mat),
        (computePi ext cfg (ext.xOrthRef X st.X_selected) yy).length = X.length := by
      intro yy
      rw [computePi_length ext cfg _ yy (hsvd _ _ _ _)]
      exact hxo X st.X_selected
    rcases hy : st.y_current with _ | yprev <;> simp [continueState, hy, hlen]

theorem c7_pi_length_witness :
    (initState extW cfgW XW none).pi.length = XW.length :=
  (c7_pi_length extW cfgW (curSuperInit cfgW) XW none
    (initState extW cfgW XW none) 1
    (fun A k it sd => by simp [extW, svdW])
    (fun A B => rfl)).1

/-- C8: a fresh start copies the input matrix entry for entry into the
working matrix, copies the target verbatim when given and leaves it absent
otherwise, starts with nothing selected, and computes the initial importance
vector over the full working matrix. -/
theorem c8_fresh_start (ext : Ext) (cfg : CURConfig) (X : Mat) (y : Option Mat) :
    (initState ext cfg X y).X_current = X ∧
    (initState ext cfg X y).y_current = y ∧
    (initState ext cfg X y).selected = [] ∧
    (initState ext cfg X y).eligible = List.replicate X.length true ∧
    (initState ext cfg X y).pi =
      computePi ext cfg (initState ext cfg X y).X_current
        (initState ext cfg X y).y_current :=
  ⟨rfl, rfl, rfl, rfl, rfl⟩

/-- C9 (counterexample): with a rank of zero — a non-positive rank — and an
otherwise valid configuration, fit signals no error at all: validation
passes, scoring work proceeds (the importance vector is computed, here all
zeros because zero singular vectors are retained), contradicting the claim
that a non-positive rank is signaled before any scoring work. -/
theorem c9_counterexample :
    cfgZ.k = 0 ∧
    fitValidated extW cfgZ XW none = Except.ok (fitFresh extW cfgZ XW none) ∧
    (initState extW cfgZ XW none).pi = [0, 0, 0] := by
  refine ⟨rfl, rfl, by decide⟩

/-- C9 (amended): fit-time validation never inspects the rank: whenever the
selection count is in range, fit succeeds and proceeds to scoring whatever
the rank, including a non-positive one; no rank error is signaled before
scoring work. -/
theorem c9_no_rank_validation (ext : Ext) (cfg : CURConfig) (X : Mat)
    (y : Option Mat) (h1 : cfg.n_samples_to_select ≠ 0)
    (h2 : cfg.n_samples_to_select ≤ X.length) :
    fitValidated ext cfg X y = Except.ok (fitFresh ext cfg X y) := by
  simp [fitValidated, h1, Nat.not_lt.mpr h2]

theorem c9_no_rank_validation_witness :
    fitValidated extW cfgZ XW none = Except.ok (fitFresh extW cfgZ XW none) :=
  c9_no_rank_validation extW cfgZ XW none (by decide) (by decide)

/-- C10: two runs identical except for the supplied target (including one
with a target and one without) agree, at every iteration, on the working
matrix, the importance vector, the eligible mask and the ordered selected
indices; in particular a full fresh fit returns the same selected sequence
and the same final importance vector. -/
theorem c10_target_independent (ext : Ext) (cfg : CURConfig) (g : GreedyConfig)
    (X : Mat) (y₁ y₂ : Option Mat) (fuel : ℕ) :
    Agree (selectLoop ext cfg g X y₁ fuel (initState ext cfg X y₁))
        (selectLoop ext cfg g X y₂ fuel (initState ext cfg X y₂)) ∧
    (fitFresh ext cfg X y₁).selected = (fitFresh ext cfg X y₂).selected ∧
    (fitFresh ext cfg X y₁).pi = (fitFresh ext cfg X y₂).pi := by
  have hinit : Agree (initState ext cfg X y₁) (initState ext cfg X y₂) :=
    ⟨rfl, rfl, rfl, rfl⟩
  have hfit := selectLoop_agree ext cfg (curSuperInit cfg) X y₁ y₂
    (curSuperInit cfg).n_to_select (initState ext cfg X y₁)
    (initState ext cfg X y₂) hinit
  exact ⟨selectLoop_agree ext cfg g X y₁ y₂ fuel _ _ hinit,
    hfit.2.2.2, hfit.2.1⟩


end SimpleCUR
